import Mathlib

/-!
# EchoStream — a shallow embedding of the auth and pagination core

This file embeds, in Lean 4, the security- and algorithm-critical parts of
the EchoStream multi-tenant messaging backend:

* the JWT token service (`internal/auth`: `GenerateToken`, `ParseToken`),
* the request-boundary auth gate (`internal/middleware/auth.go`),
* the route table wired in `cmd/server/main.go`,
* the login flow (`internal/api` auth handler),
* the message repository with cursor pagination
  (`internal/repository/postgres/message.go`),
* the membership repository (`internal/repository/postgres/membership.go`),
* the channel repository (`internal/repository/postgres/channel.go`),
* the query-parameter parsing of the message List handler
  (`internal/api/message.go`).

Modelling conventions:

* UUIDs are modelled as `Nat`; wall-clock instants as `Int` (Unix seconds).
* The HMAC-SHA256 MAC is modelled as an ideal MAC: the tag is determined by,
  and determines, the triple (algorithm, signed claims, key).  This is the
  standard idealization (an unforgeable, collision-free MAC); it is what the
  source relies on the `golang-jwt` library for.
* The PostgreSQL tables are modelled as Lean lists of rows, and each SQL
  statement as the corresponding pure list transformation, translated
  clause by clause from the query text in the source.
* Fallible operations return `Except`/`Option`.
-/

namespace EchoStream

/-! ## Token service (`internal/auth`, `GenerateToken` / `ParseToken`) -/

/-- JWT claims carried by every token, mirroring `auth.Claims`:
custom fields `user_id`, `tenant_id`, `email` plus the registered claims
the source sets (`ExpiresAt`, `IssuedAt`, `Issuer`). -/
structure Claims where
  user_id : Nat
  tenant_id : Nat
  email : String
  issued_at : Int
  expires_at : Int
  issuer : String
deriving DecidableEq, Repr

/-- JWT signing algorithms relevant to the source: the HMAC family
(`HS256`/`HS384`/`HS512`, all instances of `jwt.SigningMethodHMAC`), the
asymmetric `RS256`, and the unsigned `alg: none`. -/
inductive Alg
  | HS256
  | HS384
  | HS512
  | RS256
  | noAlg
deriving DecidableEq, Repr

/-- Whether the algorithm is in the symmetric HMAC family; this is the
`token.Method.(*jwt.SigningMethodHMAC)` type check in `ParseToken`. -/
def Alg.isHMAC : Alg → Bool
  | .HS256 => true
  | .HS384 => true
  | .HS512 => true
  | _ => false

/-- An ideal MAC tag: determined by, and determining, the algorithm, the
signed claims and the key.  Models the HMAC signature produced by
`token.SignedString([]byte(secret))`. -/
structure MacTag where
  alg : Alg
  signed : Claims
  key : String
deriving DecidableEq, Repr

/-- Computing the MAC over serialized claims with a key (idealized). -/
def hmacSign (a : Alg) (c : Claims) (key : String) : MacTag :=
  ⟨a, c, key⟩

/-- A decoded JWT: header algorithm, claims payload, and signature —
the three-part wire structure. -/
structure Token where
  alg : Alg
  claims : Claims
  sig : MacTag
deriving DecidableEq, Repr

/-- `auth.GenerateToken(userID, tenantID, email, secret, ttl)` evaluated at
clock reading `now`: claims `{user_id, tenant_id, email,
issued_at = now, expires_at = now + ttl, issuer = "echostream"}`, signed
with HS256 under `secret`. -/
def GenerateToken (userID tenantID : Nat) (email secret : String)
    (ttl now : Int) : Token :=
  let claims : Claims :=
    { user_id := userID
      tenant_id := tenantID
      email := email
      issued_at := now
      expires_at := now + ttl
      issuer := "echostream" }
  { alg := .HS256, claims := claims, sig := hmacSign .HS256 claims secret }

/-- Distinct internal failure conditions of token validation, mirroring the
distinct errors `auth.ParseToken` can return. -/
inductive AuthError
  | badAlgorithm
  | badSignature
  | expired
deriving DecidableEq, Repr

/-- `auth.ParseToken(tokenString, secret)` on an already-decoded token at
clock reading `now`:

1. reject if the signing method is not HMAC (the keyfunc type check);
2. reject if the signature does not match the MAC recomputed over the
   claims with `secret`;
3. reject if the token is expired — the `golang-jwt` v5 validator accepts
   exactly when `now` is strictly before `expires_at` (zero leeway). -/
def ParseToken (tok : Token) (secret : String) (now : Int) :
    Except AuthError Claims :=
  if ¬ tok.alg.isHMAC then .error .badAlgorithm
  else if tok.sig ≠ hmacSign tok.alg tok.claims secret then .error .badSignature
  else if tok.claims.expires_at ≤ now then .error .expired
  else .ok tok.claims

/-! ## Auth gate (`internal/middleware/auth.go`, `AuthMiddleware`) -/

/-- An HTTP response as the middleware and handlers produce it: a status
code plus the `error` field of the JSON body (empty for success bodies
that carry no error). -/
structure Response where
  status : Nat
  error : String
deriving DecidableEq, Repr

/-- `strings.SplitN(s, " ", 2)` on the character list: split at the first
space only. -/
def splitFirstSpace : List Char → Option (List Char × List Char)
  | [] => none
  | c :: cs =>
    if c = ' ' then some ([], cs)
    else
      match splitFirstSpace cs with
      | none => none
      | some (a, b) => some (c :: a, b)

/-- `strings.SplitN(s, " ", 2)`: one list if `s` has no space, otherwise
the part before the first space and everything after it. -/
def goSplitN2 (s : String) : List String :=
  match splitFirstSpace s.toList with
  | none => [s]
  | some (a, b) => [String.mk a, String.mk b]

/-- ASCII case folding of one character. -/
def foldChar (c : Char) : Char :=
  if 'A' ≤ c ∧ c ≤ 'Z' then Char.ofNat (c.toNat + 32) else c

/-- `strings.EqualFold` restricted to the ASCII range, which is all the
middleware compares against (the literal "Bearer"). -/
def eqFold (a b : String) : Bool :=
  a.toList.map foldChar == b.toList.map foldChar

/-- The middleware of `AuthMiddleware(secret)` applied to one request.

`header` is the `Authorization` header (`""` when absent — Go's
`c.GetHeader` returns the empty string for a missing header).  `decode`
stands for the wire decoding the `golang-jwt` library performs on the raw
token substring: `none` models an undecodable (malformed) string.  The
result is either the aborting response or the claims stored into the
request context. -/
def AuthMiddleware (secret : String) (now : Int)
    (decode : String → Option Token) (header : String) :
    Except Response Claims :=
  if header = "" then
    .error ⟨401, "missing authorization header"⟩
  else
    match goSplitN2 header with
    | [p0, p1] =>
      if eqFold p0 "Bearer" then
        match decode p1 with
        | none => .error ⟨401, "invalid or expired token"⟩
        | some tok =>
          match ParseToken tok secret now with
          | .error _ => .error ⟨401, "invalid or expired token"⟩
          | .ok claims => .ok claims
      else
        .error ⟨401, "invalid authorization format, expected: Bearer <token>"⟩
    | _ =>
      .error ⟨401, "invalid authorization format, expected: Bearer <token>"⟩

/-- A protected endpoint behind the gate: on middleware abort the chain
stops and the abort response is the final response; otherwise the
downstream handler runs on the stored claims. -/
def runProtected (secret : String) (now : Int)
    (decode : String → Option Token) (header : String)
    (handler : Claims → Response) : Response :=
  match AuthMiddleware secret now decode header with
  | .error r => r
  | .ok claims => handler claims

/-- One registered route, as wired in `cmd/server/main.go`: method, path,
and whether it was registered inside the `v1` group that carries
`middleware.AuthMiddleware`. -/
structure Route where
  method : String
  path : String
  requiresAuth : Bool
deriving DecidableEq, Repr

/-- The route table of `run()` in `cmd/server/main.go`: health, signup and
login are registered directly on the engine before the auth middleware is
installed; every other route is registered on the `v1` group after
`v1.Use(middleware.AuthMiddleware(...))`. -/
def routes : List Route :=
  [ ⟨"GET", "/v1/health", false⟩
  , ⟨"POST", "/v1/auth/signup", false⟩
  , ⟨"POST", "/v1/auth/login", false⟩
  , ⟨"POST", "/v1/channels", true⟩
  , ⟨"GET", "/v1/channels", true⟩
  , ⟨"GET", "/v1/channels/:id", true⟩
  , ⟨"POST", "/v1/channels/:id/messages", true⟩
  , ⟨"GET", "/v1/channels/:id/messages", true⟩
  , ⟨"POST", "/v1/channels/:id/join", true⟩
  , ⟨"POST", "/v1/channels/:id/leave", true⟩
  , ⟨"GET", "/v1/channels/:id/members", true⟩
  , ⟨"GET", "/v1/users/me", true⟩ ]

/-! ## Message repository (`internal/repository/postgres/message.go`) -/

/-- A row of the `messages` table (`models.Message`): bigserial integer
`id`, channel and sender references, body, creation instant. -/
structure Message where
  id : Int
  channel_id : Nat
  sender_id : Nat
  body : String
  created_at : Int
deriving DecidableEq, Repr

/-- `ORDER BY id DESC`: descending comparison on the bigserial key. -/
def msgDesc (a b : Message) : Prop := b.id ≤ a.id

instance : DecidableRel msgDesc := fun a b =>
  inferInstanceAs (Decidable (b.id ≤ a.id))

instance : IsTotal Message msgDesc :=
  ⟨fun a b => le_total b.id a.id⟩

instance : IsTrans Message msgDesc :=
  ⟨fun _ _ _ hab hbc => le_trans hbc hab⟩

/-- `ORDER BY id DESC` over a bag of rows. -/
def sortByIdDesc (l : List Message) : List Message :=
  l.insertionSort msgDesc

/-- `MessageStore.ListByChannel(ctx, tenantID, channelID, before, limit)`,
translated clause by clause from the two SQL paths:

* `before > 0`: `WHERE channel_id = $1 AND id < $2 ORDER BY id DESC LIMIT $3`;
* otherwise:    `WHERE channel_id = $1 ORDER BY id DESC LIMIT $2`.

Note that, exactly as in the source, the `tenantID` argument does not
occur in either query. -/
def ListByChannel (table : List Message) (tenantID channelID : Nat)
    (before : Int) (limit : Nat) : List Message :=
  let rows :=
    if before > 0 then
      table.filter (fun m => m.channel_id == channelID && decide (m.id < before))
    else
      table.filter (fun m => m.channel_id == channelID)
  (sortByIdDesc rows).take limit

/-- The bigserial sequence: the next `id` is larger than every id already
present (monotonic assignment, never reused). -/
def nextMessageId (table : List Message) : Int :=
  (table.map Message.id).foldr max 0 + 1

/-- `MessageStore.Create(ctx, tenantID, channelID, senderID, body)`:
`INSERT INTO messages (channel_id, sender_id, body, created_at) VALUES
($1, $2, $3, now()) RETURNING ...`.  Returns the new table and the
inserted row.  As in the source, `tenantID` does not occur in the
statement. -/
def MessageCreate (table : List Message) (tenantID channelID senderID : Nat)
    (body : String) (now : Int) : List Message × Message :=
  let msg : Message :=
    { id := nextMessageId table
      channel_id := channelID
      sender_id := senderID
      body := body
      created_at := now }
  (table ++ [msg], msg)

/-! ## Channel repository (`internal/repository/postgres/channel.go`) -/

/-- A row of the `channels` table (`models.Channel`). -/
structure Channel where
  id : Nat
  tenant_id : Nat
  name : String
  is_private : Bool
deriving DecidableEq, Repr

/-- `ChannelStore.GetByID(ctx, tenantID, channelID)`:
`SELECT ... FROM channels WHERE id = $1 AND tenant_id = $2`, with
`pgx.ErrNoRows` translated to `none`. -/
def ChannelGetByID (table : List Channel) (tenantID channelID : Nat) :
    Option Channel :=
  table.find? (fun ch => ch.id == channelID && ch.tenant_id == tenantID)

/-! ## Membership repository (`internal/repository/postgres/membership.go`) -/

/-- A row of the `channel_members` table (`models.ChannelMember`); primary
key `(channel_id, user_id)`. -/
structure MemberRow where
  channel_id : Nat
  user_id : Nat
  role : String
deriving DecidableEq, Repr

/-- The `(channel_id, user_id)` primary-key predicate. -/
def memberKeyMatch (channelID userID : Nat) (r : MemberRow) : Bool :=
  r.channel_id == channelID && r.user_id == userID

/-- `MembershipStore.AddMember`: `INSERT INTO channel_members ... ON
CONFLICT (channel_id, user_id) DO NOTHING` — when a row with the same key
exists the statement inserts nothing, otherwise it inserts the row. -/
def AddMember (st : List MemberRow) (channelID userID : Nat)
    (role : String) : List MemberRow :=
  if st.any (memberKeyMatch channelID userID) then st
  else st ++ [⟨channelID, userID, role⟩]

/-- `MembershipStore.RemoveMember`: `DELETE FROM channel_members WHERE
channel_id = $1 AND user_id = $2` — deletes all matching rows, zero rows
matching is not an error. -/
def RemoveMember (st : List MemberRow) (channelID userID : Nat) :
    List MemberRow :=
  st.filter (fun r => ! memberKeyMatch channelID userID r)

/-! ## User repository and login (`postgres/user.go`, auth handler) -/

/-- A bcrypt digest, idealized: self-contained salt plus a digest that is
determined by (salt, password) and collision-free in the password.  Two
hashes of the same password with different salts are distinct values. -/
structure BcryptHash where
  salt : Nat
  password : String
deriving DecidableEq, Repr

/-- `bcrypt.GenerateFromPassword` under a drawn salt. -/
def bcryptGenerate (salt : Nat) (password : String) : BcryptHash :=
  ⟨salt, password⟩

/-- `bcrypt.CompareHashAndPassword` as a Boolean: the digest recomputed
from the stored salt and the submitted password matches the stored digest
exactly when the passwords coincide. -/
def bcryptCompare (stored : BcryptHash) (password : String) : Bool :=
  stored.password == password

/-- A row of the `users` table (`models.User` plus its password hash). -/
structure UserRow where
  id : Nat
  tenant_id : Nat
  email : String
  display_name : String
  password_hash : BcryptHash
deriving DecidableEq, Repr

/-- `UserStore.GetByEmail(ctx, email)`:
`SELECT ... FROM users WHERE email = $1` — intentionally global, not
tenant-scoped; `pgx.ErrNoRows` becomes `none`. -/
def GetByEmail (table : List UserRow) (email : String) : Option UserRow :=
  table.find? (fun u => u.email == email)

/-- The outcome of the login endpoint: a success status with the issued
token, or an error response. -/
inductive LoginOutcome
  | success (status : Nat) (token : Token)
  | failure (r : Response)
deriving DecidableEq, Repr

/-- `AuthHandler.Login`: look the user up by email (globally); reply 401
`"invalid email or password"` both when no user exists and when the bcrypt
comparison fails; on success issue a 24-hour token and reply 200. -/
def Login (users : List UserRow) (secret : String) (now : Int)
    (email password : String) : LoginOutcome :=
  match GetByEmail users email with
  | none => .failure ⟨401, "invalid email or password"⟩
  | some u =>
    if bcryptCompare u.password_hash password then
      .success 200 (GenerateToken u.id u.tenant_id u.email secret (24 * 3600) now)
    else
      .failure ⟨401, "invalid email or password"⟩

/-! ## Message List handler parameter parsing (`internal/api/message.go`) -/

/-- Decimal value of a digit string. -/
def digitsVal (cs : List Char) : Nat :=
  cs.foldl (fun acc c => 10 * acc + (c.toNat - ('0').toNat)) 0

/-- Go's `strconv.Atoi` / `strconv.ParseInt(s, 10, 64)` shape: an optional
single leading sign followed by at least one ASCII digit, nothing else.
(The 64-bit range limit is not modelled; no claim touches it.) -/
def goParseInt (s : String) : Option Int :=
  match s.toList with
  | [] => none
  | '+' :: rest =>
    if rest ≠ [] ∧ rest.all Char.isDigit then some (digitsVal rest) else none
  | '-' :: rest =>
    if rest ≠ [] ∧ rest.all Char.isDigit then some (-(digitsVal rest : Int))
    else none
  | cs =>
    if cs.all Char.isDigit then some (digitsVal cs) else none

/-- The `before` query-parameter handling in `MessageHandler.List`:
absent (Go: `c.Query` returns `""`) defaults to `0`; otherwise
`strconv.ParseInt(b, 10, 64)`, a parse failure is a 400 naming the
parameter; any parsed value — including negative ones — is accepted. -/
def parseBeforeParam (q : Option String) : Except Response Int :=
  match q with
  | none => .ok 0
  | some s =>
    if s = "" then .ok 0
    else
      match goParseInt s with
      | none => .error ⟨400, "invalid \x27before\x27 parameter"⟩
      | some n => .ok n

/-- The `limit` query-parameter handling in `MessageHandler.List`:
absent defaults to `50`; `strconv.Atoi` failure or a value below 1 is a
400 naming the parameter; a value above 100 is silently replaced by
100. -/
def parseLimitParam (q : Option String) : Except Response Nat :=
  match q with
  | none => .ok 50
  | some s =>
    if s = "" then .ok 50
    else
      match goParseInt s with
      | none => .error ⟨400, "invalid \x27limit\x27 parameter"⟩
      | some n =>
        if n < 1 then .error ⟨400, "invalid \x27limit\x27 parameter"⟩
        else if n > 100 then .ok 100
        else .ok n.toNat

/-- `MessageHandler.List` after channel-id parsing: parse `before`, then
`limit`, then run the repository query; a parameter error short-circuits
with the 400 response. -/
def MessageListHandler (table : List Message) (tenantID channelID : Nat)
    (beforeQ limitQ : Option String) : Except Response (List Message) :=
  match parseBeforeParam beforeQ with
  | .error r => .error r
  | .ok before =>
    match parseLimitParam limitQ with
    | .error r => .error r
    | .ok limit => .ok (ListByChannel table tenantID channelID before limit)

/-! ## Concrete values used in witnesses and counterexamples -/

/-- A concrete signing secret. -/
def secretK : String := "k"

/-- A concrete registered email. -/
def emailA : String := "a@x.com"

/-- A concrete unregistered email. -/
def emailB : String := "b@x.com"

/-- A concrete wrong password. -/
def pwWrong : String := "wrongpass"

/-- The default membership role. -/
def roleMember : String := "member"

/-- A well-shaped Authorization header carrying the raw token string "x". -/
def headerBearerX : String := "Bearer x"

/-- A concrete claims payload. -/
def claims0 : Claims :=
  { user_id := 1
    tenant_id := 2
    email := emailA
    issued_at := 0
    expires_at := 1000
    issuer := "echostream" }

/-- A token over `claims0` signed under a key other than `secretK`. -/
def tokenWrongKey : Token :=
  { alg := .HS256, claims := claims0, sig := hmacSign .HS256 claims0 ("attacker") }

/-- A token that expired before instant 0 (negative ttl at issue time 0). -/
def expiredToken : Token := GenerateToken 1 2 emailA secretK (-1) 0

/-- A wire decoder on which every token string is undecodable. -/
def decodeNone : String → Option Token := fun _ => none

/-- A wire decoder that decodes every string to `expiredToken`. -/
def decodeExpired : String → Option Token := fun _ => some expiredToken

/-- A wire decoder that decodes every string to `tokenWrongKey`. -/
def decodeWrongKey : String → Option Token := fun _ => some tokenWrongKey

/-- A downstream handler that would answer 200 if it ever ran. -/
def handlerOk : Claims → Response := fun _ => ⟨200, ""⟩

/-- A concrete over-cap limit parameter. -/
def limitStr500 : String := "500"

/-- A concrete registered user row. -/
def userAlice : UserRow :=
  { id := 10
    tenant_id := 3
    email := emailA
    display_name := "Alice"
    password_hash := bcryptGenerate 7 ("hunter22") }

/-- A concrete users table holding only `userAlice`. -/
def usersTable : List UserRow := [userAlice]

/-- Messages with bigserial keys 1..10, all in channel 5. -/
def messages10 : List Message :=
  (List.range 10).map (fun i => ⟨(i : Int) + 1, 5, 3, "m", 0⟩)

/-- Tenant A of the isolation scenario. -/
def tenantA : Nat := 1

/-- Tenant B of the isolation scenario. -/
def tenantB : Nat := 2

/-- A channel owned by tenant B. -/
def channelB : Channel := ⟨7, 2, "general", false⟩

/-- The channels table of the isolation scenario. -/
def channelsTable : List Channel := [channelB]

/-- A message sitting in channel 7, which belongs to tenant B. -/
def messageB : Message := ⟨11, 7, 9, "b-confidential", 0⟩

/-- The messages table of the isolation scenario. -/
def messagesTable : List Message := [messageB]

/-! ## Token service lemmas -/

/-- A non-HMAC algorithm is rejected before any other check. -/
theorem parseToken_error_badAlg (t : Token) (secret : String) (now : Int)
    (h : t.alg.isHMAC = false) :
    ParseToken t secret now = .error .badAlgorithm := by
  simp [ParseToken, h]

/-- A token whose MAC was keyed by anything other than the verification
secret never validates. -/
theorem parseToken_error_of_key (t : Token) (secret : String) (now : Int)
    (h : t.sig.key ≠ secret) :
    ∃ e, ParseToken t secret now = .error e := by
  unfold ParseToken
  split
  · exact ⟨_, rfl⟩
  · split
    · exact ⟨_, rfl⟩
    · split
      · exact ⟨_, rfl⟩
      · rename_i hA hS hE
        exact absurd (congrArg MacTag.key (not_not.mp hS)) h

/-- A token whose claim bytes differ from the claims its MAC was computed
over never validates. -/
theorem parseToken_error_of_mutated (t : Token) (secret : String) (now : Int)
    (h : t.sig.signed ≠ t.claims) :
    ∃ e, ParseToken t secret now = .error e := by
  unfold ParseToken
  split
  · exact ⟨_, rfl⟩
  · split
    · exact ⟨_, rfl⟩
    · split
      · exact ⟨_, rfl⟩
      · rename_i hA hS hE
        exact absurd (congrArg MacTag.signed (not_not.mp hS)) h

/-- A token past its expiry never validates. -/
theorem parseToken_error_of_expired (t : Token) (secret : String) (now : Int)
    (h : t.claims.expires_at < now) :
    ∃ e, ParseToken t secret now = .error e := by
  unfold ParseToken
  split
  · exact ⟨_, rfl⟩
  · split
    · exact ⟨_, rfl⟩
    · split
      · exact ⟨_, rfl⟩
      · rename_i hA hS hE
        exact absurd (le_of_lt h) hE

/-- On a well-shaped Bearer header, the gate response is exactly the
token-validation outcome collapsed to the one unauthorized response. -/
theorem authMiddleware_headerBearerX (secret : String) (now : Int) (t : Token) :
    AuthMiddleware secret now (fun _ => some t) headerBearerX =
      match ParseToken t secret now with
      | .error _ => .error ⟨401, "invalid or expired token"⟩
      | .ok claims => .ok claims := rfl

/-- Any token-validation failure is surfaced as the single literal
unauthorized response. -/
theorem authMiddleware_of_parse_error (secret : String) (now : Int)
    (t : Token) (e : AuthError) (h : ParseToken t secret now = .error e) :
    AuthMiddleware secret now (fun _ => some t) headerBearerX =
      .error ⟨401, "invalid or expired token"⟩ := by
  rw [authMiddleware_headerBearerX, h]

/-- C3: for every principal (user_id, tenant_id, email), secret and ttl,
validating a token produced by issue with the same secret, at any time
strictly before issued_at + ttl, succeeds and returns exactly the issued
principal fields. -/
theorem C3_validate_roundtrip (uid tid : Nat) (email secret : String)
    (ttl now now' : Int) (h : now' < now + ttl) :
    ParseToken (GenerateToken uid tid email secret ttl now) secret now' =
      .ok (GenerateToken uid tid email secret ttl now).claims ∧
    (GenerateToken uid tid email secret ttl now).claims.user_id = uid ∧
    (GenerateToken uid tid email secret ttl now).claims.tenant_id = tid ∧
    (GenerateToken uid tid email secret ttl now).claims.email = email := by
  refine ⟨?_, rfl, rfl, rfl⟩
  have hexp : ¬ ((GenerateToken uid tid email secret ttl now).claims.expires_at ≤ now') := by
    simp only [GenerateToken]
    omega
  simp [ParseToken, Alg.isHMAC, hexp, GenerateToken]
  omega

/-- C3 witness: the roundtrip at a concrete principal, secret, ttl and a
validation instant strictly before expiry. -/
theorem C3_witness :
    ParseToken (GenerateToken 7 9 emailA secretK 3600 100) secretK 200 =
      .ok (GenerateToken 7 9 emailA secretK 3600 100).claims :=
  (C3_validate_roundtrip 7 9 emailA secretK 3600 100 200 (by decide)).1

/-- C4: validation returns an error — never a principal — for a token
signed under a different secret, a token whose claims were mutated after
signing, a token whose expiry has passed, and a token whose embedded
algorithm is outside the HMAC family; in all four cases the externally
surfaced outcome is the identical unauthorized response. -/
theorem C4_validate_rejects (secret : String) (now : Int) (t : Token) :
    (t.sig.key ≠ secret →
      (∃ e, ParseToken t secret now = .error e) ∧
      AuthMiddleware secret now (fun _ => some t) headerBearerX =
        .error ⟨401, "invalid or expired token"⟩) ∧
    (t.sig.signed ≠ t.claims →
      (∃ e, ParseToken t secret now = .error e) ∧
      AuthMiddleware secret now (fun _ => some t) headerBearerX =
        .error ⟨401, "invalid or expired token"⟩) ∧
    (t.claims.expires_at < now →
      (∃ e, ParseToken t secret now = .error e) ∧
      AuthMiddleware secret now (fun _ => some t) headerBearerX =
        .error ⟨401, "invalid or expired token"⟩) ∧
    (t.alg.isHMAC = false →
      (∃ e, ParseToken t secret now = .error e) ∧
      AuthMiddleware secret now (fun _ => some t) headerBearerX =
        .error ⟨401, "invalid or expired token"⟩) := by
  refine ⟨fun h => ?_, fun h => ?_, fun h => ?_, fun h => ?_⟩
  · obtain ⟨e, he⟩ := parseToken_error_of_key t secret now h
    exact ⟨⟨e, he⟩, authMiddleware_of_parse_error secret now t e he⟩
  · obtain ⟨e, he⟩ := parseToken_error_of_mutated t secret now h
    exact ⟨⟨e, he⟩, authMiddleware_of_parse_error secret now t e he⟩
  · obtain ⟨e, he⟩ := parseToken_error_of_expired t secret now h
    exact ⟨⟨e, he⟩, authMiddleware_of_parse_error secret now t e he⟩
  · have he := parseToken_error_badAlg t secret now h
    exact ⟨⟨_, he⟩, authMiddleware_of_parse_error secret now t _ he⟩

/-- C4 witness: a token signed under the key "attacker" is rejected by
validation under `secretK`, with the literal unauthorized response. -/
theorem C4_witness :
    AuthMiddleware secretK 0 decodeWrongKey headerBearerX =
      .error ⟨401, "invalid or expired token"⟩ :=
  ((C4_validate_rejects secretK 0 tokenWrongKey).1 (by decide)).2

/-! ## Auth gate lemmas -/

/-- Every aborting response of the gate carries status 401, whatever the
internal failure reason. -/
theorem authMiddleware_error_status (secret : String) (now : Int)
    (decode : String → Option Token) (header : String) (r : Response)
    (h : AuthMiddleware secret now decode header = .error r) :
    r.status = 401 := by
  unfold AuthMiddleware at h
  split at h
  · obtain rfl := Except.error.inj h
    rfl
  · split at h
    · split at h
      · split at h
        · obtain rfl := Except.error.inj h
          rfl
        · split at h
          · obtain rfl := Except.error.inj h
            rfl
          · exact absurd h (by simp)
      · obtain rfl := Except.error.inj h
        rfl
    · obtain rfl := Except.error.inj h
      rfl

/-- C2 counterexample: two authentication failures with different internal
reasons — missing header versus expired token — produce observably
different responses: both are 401, but the error bodies differ.  This
refutes the claim that the externally observable response is identical
across all authentication failure modes. -/
theorem C2_counterexample :
    AuthMiddleware secretK 0 decodeExpired "" =
      .error ⟨401, "missing authorization header"⟩ ∧
    AuthMiddleware secretK 0 decodeExpired headerBearerX =
      .error ⟨401, "invalid or expired token"⟩ ∧
    (⟨401, "missing authorization header"⟩ : Response) ≠
      ⟨401, "invalid or expired token"⟩ := by
  refine ⟨rfl, ?_, by decide⟩
  exact authMiddleware_of_parse_error secretK 0 expiredToken .expired rfl

/-- C2 amended: every authentication failure — missing header, malformed
Bearer shape, malformed token, signature mismatch, expiry, disallowed
algorithm — aborts with the same 401 status; the failures inside token
validation are additionally collapsed into one literal response, but the
missing-header and malformed-shape failures carry distinct error
bodies. -/
theorem C2_unauthorized_status (secret : String) (now : Int)
    (decode : String → Option Token) (header : String) (r : Response)
    (h : AuthMiddleware secret now decode header = .error r) :
    r.status = 401 ∧
    ∀ t e, ParseToken t secret now = .error e →
      AuthMiddleware secret now (fun _ => some t) headerBearerX =
        .error ⟨401, "invalid or expired token"⟩ :=
  ⟨authMiddleware_error_status secret now decode header r h,
   fun t e he => authMiddleware_of_parse_error secret now t e he⟩

/-- C2 witness: the amended statement at a concrete failing request. -/
theorem C2_witness :
    (⟨401, "missing authorization header"⟩ : Response).status = 401 :=
  (C2_unauthorized_status secretK 0 decodeNone ""
    ⟨401, "missing authorization header"⟩ rfl).1

/-- C5: whenever the gate aborts, the abort response is a 401 and the
final response is that abort for every conceivable downstream handler —
no handler runs; the gate aborts on a missing header, on a header that
does not split into a case-insensitive Bearer scheme plus token, and on
any token-validation failure; and exactly the health, signup and login
routes are registered outside the gate. -/
theorem C5_auth_gate (secret : String) (now : Int)
    (decode : String → Option Token) :
    (∀ header r, AuthMiddleware secret now decode header = .error r →
      r.status = 401 ∧
      ∀ handler, runProtected secret now decode header handler = r) ∧
    (AuthMiddleware secret now decode "" =
      .error ⟨401, "missing authorization header"⟩) ∧
    (∀ header p0 p1, header ≠ "" → goSplitN2 header = [p0, p1] →
      eqFold p0 ("Bearer") = false →
      AuthMiddleware secret now decode header =
        .error ⟨401, "invalid authorization format, expected: Bearer <token>"⟩) ∧
    (∀ header, header ≠ "" → (∀ p0 p1, goSplitN2 header ≠ [p0, p1]) →
      AuthMiddleware secret now decode header =
        .error ⟨401, "invalid authorization format, expected: Bearer <token>"⟩) ∧
    (∀ header p0 p1 t e, header ≠ "" → goSplitN2 header = [p0, p1] →
      eqFold p0 ("Bearer") = true → decode p1 = some t →
      ParseToken t secret now = .error e →
      AuthMiddleware secret now decode header =
        .error ⟨401, "invalid or expired token"⟩) ∧
    (∀ rt ∈ routes, rt.requiresAuth = false ↔
      rt.path ∈ [("/v1/health"), ("/v1/auth/signup"), ("/v1/auth/login")]) := by
  refine ⟨?_, rfl, ?_, ?_, ?_, by decide⟩
  · intro header r h
    refine ⟨authMiddleware_error_status secret now decode header r h, ?_⟩
    intro handler
    unfold runProtected
    rw [h]
  · intro header p0 p1 hne hsplit hfold
    unfold AuthMiddleware
    rw [if_neg hne, hsplit]
    simp [hfold]
  · intro header hne h2
    unfold AuthMiddleware
    rw [if_neg hne]
    cases hg : goSplitN2 header with
    | nil => rfl
    | cons a tl =>
      cases tl with
      | nil => rfl
      | cons b tl2 =>
        cases tl2 with
        | nil => exact absurd hg (h2 a b)
        | cons c tl3 => rfl
  · intro header p0 p1 t e hne hsplit hfold hdec hparse
    unfold AuthMiddleware
    rw [if_neg hne, hsplit]
    simp [hfold, hdec, hparse]

/-- C5 witness: a request with no Authorization header is answered by the
literal missing-header 401, whatever the downstream handler would have
answered. -/
theorem C5_witness :
    runProtected secretK 0 decodeNone "" handlerOk =
      ⟨401, "missing authorization header"⟩ :=
  ((C5_auth_gate secretK 0 decodeNone).1 "" ⟨401, "missing authorization header"⟩
    rfl).2 handlerOk

/-! ## List handler parameter lemmas -/

/-- C7: the limit parameter defaults to 50 when absent; a parseable value
above the cap 100 is silently replaced by 100, not rejected; an
unparseable value, or a value below 1, yields a 400 response whose body
names the limit parameter. -/
theorem C7_limit_clamping :
    parseLimitParam none = .ok 50 ∧
    (∀ s n, goParseInt s = some n → 100 < n →
      parseLimitParam (some s) = .ok 100) ∧
    (∀ s, s ≠ "" → goParseInt s = none →
      parseLimitParam (some s) = .error ⟨400, "invalid \x27limit\x27 parameter"⟩) ∧
    (∀ s n, goParseInt s = some n → n < 1 →
      parseLimitParam (some s) = .error ⟨400, "invalid \x27limit\x27 parameter"⟩) ∧
    ("limit").toList.IsInfix ("invalid \x27limit\x27 parameter").toList := by
  refine ⟨rfl, ?_, ?_, ?_, by decide⟩
  · intro s n hparse hcap
    have hne : s ≠ "" := by
      intro he
      rw [he] at hparse
      exact Option.noConfusion hparse
    simp only [parseLimitParam, if_neg hne, hparse]
    rw [if_neg (show ¬ n < 1 by omega), if_pos (show n > 100 by omega)]
  · intro s hne hparse
    simp only [parseLimitParam, if_neg hne, hparse]
  · intro s n hparse hlow
    have hne : s ≠ "" := by
      intro he
      rw [he] at hparse
      exact Option.noConfusion hparse
    simp only [parseLimitParam, if_neg hne, hparse]
    rw [if_pos hlow]

/-- C7 witness: limit 500 is silently capped to 100. -/
theorem C7_witness : parseLimitParam (some limitStr500) = .ok 100 :=
  C7_limit_clamping.2.1 limitStr500 500 (by decide) (by decide)

/-- C10: a non-positive cursor — including the negative values the List
handler accepts without a client error — takes the same no-cursor query
path as cursor 0 and returns the first page; the handler accepts every
integer the Go parser produces for the before parameter, negatives
included. -/
theorem C10_nonpositive_cursor (table : List Message)
    (tenantID channelID : Nat) (limit : Nat) (before : Int)
    (h : before ≤ 0) :
    ListByChannel table tenantID channelID before limit =
      ListByChannel table tenantID channelID 0 limit ∧
    (∀ s n, goParseInt s = some n → parseBeforeParam (some s) = .ok n) := by
  constructor
  · unfold ListByChannel
    rw [if_neg (by omega), if_neg (by omega)]
  · intro s n hparse
    have hne : s ≠ "" := by
      intro he
      rw [he] at hparse
      exact Option.noConfusion hparse
    simp only [parseBeforeParam, if_neg hne, hparse]

/-- C10 witness: cursor -5 returns the same page as cursor 0 on the
concrete ten-message channel. -/
theorem C10_witness :
    ListByChannel messages10 5 5 (-5) 3 = ListByChannel messages10 5 5 0 3 :=
  (C10_nonpositive_cursor messages10 5 5 3 (-5) (by decide)).1

/-! ## Login lemmas -/

/-- C8: a login with a registered email but wrong password and a login
with an unregistered email produce the same 401 response with the same
undifferentiated body. -/
theorem C8_login_indistinguishable (users : List UserRow) (secret : String)
    (now : Int) (e1 p1 e2 p2 : String) (u : UserRow)
    (h1 : GetByEmail users e1 = some u)
    (h2 : bcryptCompare u.password_hash p1 = false)
    (h3 : GetByEmail users e2 = none) :
    Login users secret now e1 p1 = .failure ⟨401, "invalid email or password"⟩ ∧
    Login users secret now e2 p2 = .failure ⟨401, "invalid email or password"⟩ ∧
    Login users secret now e1 p1 = Login users secret now e2 p2 := by
  refine ⟨?_, ?_, ?_⟩
  · unfold Login
    rw [h1]
    simp [h2]
  · unfold Login
    rw [h3]
  · unfold Login
    rw [h1, h3]
    simp [h2]

/-- C8 witness: wrong password for the registered `emailA` and a login
with the unregistered `emailB` coincide. -/
theorem C8_witness :
    Login usersTable secretK 0 emailA pwWrong =
      .failure ⟨401, "invalid email or password"⟩ :=
  (C8_login_indistinguishable usersTable secretK 0 emailA pwWrong emailB pwWrong
    userAlice (by decide) (by decide) (by decide)).1

/-! ## Membership lemmas -/

/-- C9: under the primary-key invariant (at most one row per
(channel, user) pair), calling AddMember twice with the same pair leaves
exactly one membership row for that pair — both calls succeed, the model
being total; RemoveMember on a non-member leaves the table unchanged. -/
theorem C9_membership_idempotent (st : List MemberRow)
    (channelID userID : Nat) (role : String) :
    (st.countP (memberKeyMatch channelID userID) ≤ 1 →
      ((AddMember (AddMember st channelID userID role) channelID userID role).countP
        (memberKeyMatch channelID userID)) = 1) ∧
    (st.any (memberKeyMatch channelID userID) = false →
      RemoveMember st channelID userID = st) := by
  constructor
  · intro hpk
    by_cases hmem : st.any (memberKeyMatch channelID userID) = true
    · have h1 : AddMember st channelID userID role = st := by
        unfold AddMember
        rw [if_pos hmem]
      rw [h1, h1]
      obtain ⟨x, hx, hpx⟩ := List.any_eq_true.mp hmem
      have : 0 < st.countP (memberKeyMatch channelID userID) :=
        List.countP_pos_iff.mpr ⟨x, hx, hpx⟩
      omega
    · have hmem' : st.any (memberKeyMatch channelID userID) = false :=
        Bool.not_eq_true _ ▸ Bool.eq_false_iff.mpr hmem
      have h1 : AddMember st channelID userID role =
          st ++ [⟨channelID, userID, role⟩] := by
        unfold AddMember
        rw [if_neg]
        rw [hmem']
        exact Bool.false_ne_true
      have hrow : memberKeyMatch channelID userID ⟨channelID, userID, role⟩ = true := by
        simp [memberKeyMatch]
      have h2 : AddMember (st ++ [⟨channelID, userID, role⟩]) channelID userID role =
          st ++ [⟨channelID, userID, role⟩] := by
        unfold AddMember
        rw [if_pos]
        rw [List.any_append]
        simp [hrow]
      rw [h1, h2, List.countP_append]
      have h0 : st.countP (memberKeyMatch channelID userID) = 0 :=
        List.countP_eq_zero.mpr (List.any_eq_false.mp hmem')
      rw [h0]
      simp [List.countP, List.countP.go, hrow]
  · intro hnm
    unfold RemoveMember
    rw [List.filter_eq_self]
    intro a ha
    have := List.any_eq_false.mp hnm a ha
    simp only [Bool.not_eq_true] at this
    rw [this]
    rfl

/-- C9 witness: joining twice from the empty membership table leaves
exactly one row for the pair. -/
theorem C9_witness :
    ((AddMember (AddMember ([] : List MemberRow) 1 2 roleMember) 1 2 roleMember).countP
      (memberKeyMatch 1 2)) = 1 :=
  (C9_membership_idempotent [] 1 2 roleMember).1 (by decide)

/-! ## Tenant scoping of the message repository -/

/-- C1: the message repository ignores its tenant argument.  The channel
store does scope by tenant — tenant A requesting channel 7 (owned by
tenant B) gets not-found — but both message operations run the same query
for every tenant argument, so a message list issued with tenant A against
channel 7 returns the channel messages of tenant B rather than the
empty result an absent channel would produce, and a message create lands
in channel 7.  This refutes the claim that a wrong-tenant message-list or
message-create behaves as if the channel did not exist. -/
theorem C1_message_access_ignores_tenant :
    (∀ (tbl : List Message) (t1 t2 channelID : Nat) (b : Int) (l : Nat),
      ListByChannel tbl t1 channelID b l = ListByChannel tbl t2 channelID b l) ∧
    (∀ (tbl : List Message) (t1 t2 channelID senderID : Nat) (body : String) (now : Int),
      MessageCreate tbl t1 channelID senderID body now =
        MessageCreate tbl t2 channelID senderID body now) ∧
    ChannelGetByID channelsTable tenantA channelB.id = none ∧
    ListByChannel messagesTable tenantA channelB.id 0 50 = [messageB] ∧
    ListByChannel ([] : List Message) tenantA channelB.id 0 50 = [] ∧
    [messageB] ≠ ([] : List Message) ∧
    (MessageCreate messagesTable tenantA channelB.id 3 "hi" 1).2.channel_id =
      channelB.id := by
  exact ⟨fun tbl t1 t2 channelID b l => rfl,
    fun tbl t1 t2 channelID senderID body now => rfl,
    by decide, by decide, rfl, by decide, rfl⟩

/-! ## Pagination lemmas -/

/-- The sort stage of the list query is sorted descending (non-strict). -/
theorem sortByIdDesc_sorted (l : List Message) :
    (sortByIdDesc l).Pairwise msgDesc :=
  List.sorted_insertionSort msgDesc l

/-- The sort stage is a permutation of its input rows. -/
theorem sortByIdDesc_perm (l : List Message) : (sortByIdDesc l).Perm l :=
  List.perm_insertionSort msgDesc l

/-- With pairwise-distinct bigserial keys, the sort is strictly
descending. -/
theorem sortByIdDesc_strict (l : List Message)
    (h : (l.map Message.id).Nodup) :
    (sortByIdDesc l).Pairwise (fun a b => b.id < a.id) := by
  have hnd : ((sortByIdDesc l).map Message.id).Nodup :=
    (((sortByIdDesc_perm l).map Message.id).nodup_iff).mpr h
  have hne : (sortByIdDesc l).Pairwise (fun a b => a.id ≠ b.id) :=
    List.pairwise_map.mp hnd
  exact ((sortByIdDesc_sorted l).and hne).imp
    (fun h2 => lt_of_le_of_ne h2.1 (Ne.symm h2.2))

/-- One page of the query `WHERE p ORDER BY id DESC LIMIT limit` over a
table with pairwise-distinct keys: every returned row is a table row
satisfying the predicate; the page length is the lesser of the limit and
the number of matching rows; the page is strictly descending; and every
matching row left out of the page is older (smaller key) than every row
on the page. -/
theorem listByChannel_page (p : Message → Bool) (table : List Message)
    (limit : Nat) (hids : (table.map Message.id).Nodup) :
    (∀ m ∈ (sortByIdDesc (table.filter p)).take limit, m ∈ table ∧ p m = true) ∧
    ((sortByIdDesc (table.filter p)).take limit).length =
      min limit (table.filter p).length ∧
    ((sortByIdDesc (table.filter p)).take limit).Pairwise
      (fun a b => b.id < a.id) ∧
    (∀ x ∈ table.filter p, x ∉ (sortByIdDesc (table.filter p)).take limit →
      ∀ y ∈ (sortByIdDesc (table.filter p)).take limit, x.id < y.id) := by
  have hsub : (table.filter p).Sublist table := List.filter_sublist table
  have hperm := sortByIdDesc_perm (table.filter p)
  have hidr : ((table.filter p).map Message.id).Nodup :=
    List.Nodup.sublist (hsub.map Message.id) hids
  have hstrict := sortByIdDesc_strict (table.filter p) hidr
  have htake : ((sortByIdDesc (table.filter p)).take limit).Sublist
      (sortByIdDesc (table.filter p)) :=
    List.take_sublist limit (sortByIdDesc (table.filter p))
  refine ⟨?_, ?_, List.Pairwise.sublist htake hstrict, ?_⟩
  · intro m hm
    have hmr : m ∈ table.filter p := hperm.mem_iff.mp (htake.subset hm)
    exact List.mem_filter.mp hmr
  · rw [List.length_take, hperm.length_eq]
  · intro x hx hnotres y hy
    have hxs : x ∈ sortByIdDesc (table.filter p) := hperm.mem_iff.mpr hx
    have hsplit := List.take_append_drop limit (sortByIdDesc (table.filter p))
    have hpair := hstrict
    rw [← hsplit] at hpair
    obtain ⟨-, -, hcross⟩ := List.pairwise_append.mp hpair
    have hxdrop : x ∈ (sortByIdDesc (table.filter p)).drop limit := by
      rcases List.mem_append.mp (by rw [hsplit]; exact hxs) with hin | hin
      · exact absurd hin hnotres
      · exact hin
    exact hcross y hy x hxdrop

/-- C6: with cursor 0 the list operation returns the limit most recent
messages of the channel in strictly descending key order (full pages up
to the number of channel messages, every omitted channel message older
than every returned one); with cursor strictly positive it returns up to
limit channel messages with key strictly below the cursor, strictly
descending; and on keys 1..10: cursor 0 limit 3 yields keys 10,9,8;
cursor 8 limit 3 yields 7,6,5; cursor 1 limit 5 yields the empty
sequence. -/
theorem C6_pagination (table : List Message) (tenantID channelID : Nat)
    (limit : Nat) (before : Int)
    (hids : (table.map Message.id).Nodup) :
    (0 < before →
      (∀ m ∈ ListByChannel table tenantID channelID before limit,
        m.channel_id = channelID ∧ m.id < before) ∧
      (ListByChannel table tenantID channelID before limit).length ≤ limit ∧
      (ListByChannel table tenantID channelID before limit).Pairwise
        (fun a b => b.id < a.id)) ∧
    ((∀ m ∈ ListByChannel table tenantID channelID 0 limit,
        m.channel_id = channelID) ∧
      (ListByChannel table tenantID channelID 0 limit).length =
        min limit (table.filter (fun m => m.channel_id == channelID)).length ∧
      (ListByChannel table tenantID channelID 0 limit).Pairwise
        (fun a b => b.id < a.id) ∧
      (∀ x ∈ table, x.channel_id = channelID →
        x ∉ ListByChannel table tenantID channelID 0 limit →
        ∀ y ∈ ListByChannel table tenantID channelID 0 limit, x.id < y.id)) ∧
    (ListByChannel messages10 5 5 0 3).map Message.id = [10, 9, 8] ∧
    (ListByChannel messages10 5 5 8 3).map Message.id = [7, 6, 5] ∧
    ListByChannel messages10 5 5 1 5 = [] := by
  refine ⟨?_, ?_, by decide, by decide, by decide⟩
  · intro hb
    have heq : ListByChannel table tenantID channelID before limit =
        (sortByIdDesc (table.filter
          (fun m => m.channel_id == channelID && decide (m.id < before)))).take limit := by
      simp only [ListByChannel]
      rw [if_pos hb]
    obtain ⟨hmem, hlen, hpair, -⟩ := listByChannel_page
      (fun m => m.channel_id == channelID && decide (m.id < before)) table limit hids
    refine ⟨?_, ?_, ?_⟩
    · intro m hm
      rw [heq] at hm
      obtain ⟨-, hp⟩ := hmem m hm
      rw [Bool.and_eq_true] at hp
      exact ⟨by simpa using hp.1, of_decide_eq_true hp.2⟩
    · rw [heq, hlen]
      exact Nat.min_le_left _ _
    · rw [heq]
      exact hpair
  · have heq : ListByChannel table tenantID channelID 0 limit =
        (sortByIdDesc (table.filter (fun m => m.channel_id == channelID))).take limit := by
      simp only [ListByChannel]
      rw [if_neg (by omega)]
    obtain ⟨hmem, hlen, hpair, hmax⟩ := listByChannel_page
      (fun m => m.channel_id == channelID) table limit hids
    refine ⟨?_, ?_, ?_, ?_⟩
    · intro m hm
      rw [heq] at hm
      obtain ⟨-, hp⟩ := hmem m hm
      simpa using hp
    · rw [heq, hlen]
    · rw [heq]
      exact hpair
    · intro x hx hch hnot y hy
      rw [heq] at hnot hy
      exact hmax x (List.mem_filter.mpr ⟨hx, by simpa using hch⟩) hnot y hy

/-- C6 witness: the cursor-8 page of the concrete ten-message channel has
at most three rows. -/
theorem C6_witness : (ListByChannel messages10 5 5 8 3).length ≤ 3 :=
  ((C6_pagination messages10 5 5 3 8 (by decide)).1 (by decide)).2.1

end EchoStream
